import Mathlib

/-!
Verification of the time-weighted linear trend estimator specified for the
`feature_extraction_with_datetime_index` notebook.

The notebook under `src/` only invokes the estimator (`linear_trend_timewise`,
from the wider tsfresh library) and displays its outputs; the estimator body is
not under `src/`.  Following the specification (spec.md §4.1, §7), the
estimator is modelled here as a pure function over exact rational timestamps
(seconds) and values.  The Student-t survival function used by step 5 of the
algorithm is not reproduced numerically; it is passed as an explicit parameter
`tsf`, which is all the stated properties depend on.
-/

/-- A sample: a timestamp (in seconds on a real-valued time axis) paired with
a numeric value.  Modelled from the spec: "Sample: a pair (timestamp, numeric
value)". -/
structure Sample where
  t : ℚ
  v : ℚ
deriving DecidableEq, Repr

/-- The five-field regression record: "Regression result: an immutable record
of five real-valued fields: slope, intercept, correlation coefficient,
p-value, standard error."  Slope and intercept are exact rationals of the
input; rvalue, pvalue and stderr involve a square root and live in ℝ. -/
structure RegressionResult where
  slope : ℚ
  intercept : ℚ
  rvalue : ℝ
  pvalue : ℝ
  stderr : ℝ

/-- Arithmetic mean of a list of rationals. -/
def mean (l : List ℚ) : ℚ := l.sum / l.length

/-- Centered second moment Σ (x_i − x̄)². -/
def sqdev (xs : List ℚ) : ℚ := (xs.map (fun x => (x - mean xs) ^ 2)).sum

/-- Centered cross moment Σ (x_i − x̄)(y_i − ȳ). -/
def crossdev (xs ys : List ℚ) : ℚ :=
  ((xs.zip ys).map (fun p => (p.1 - mean xs) * (p.2 - mean ys))).sum

/-- OLS slope: Σ(x−x̄)(y−ȳ) / Σ(x−x̄)².  Modelled from the spec: "Fit an
ordinary least-squares simple linear regression y = slope·x + intercept". -/
def olsSlope (xs ys : List ℚ) : ℚ := crossdev xs ys / sqdev xs

/-- OLS intercept: ȳ − slope·x̄. -/
def olsIntercept (xs ys : List ℚ) : ℚ := mean ys - olsSlope xs ys * mean xs

/-- Pearson correlation coefficient.  Modelled from the spec: "Compute the
Pearson correlation coefficient (rvalue) between x and y". -/
noncomputable def olsRvalue (xs ys : List ℚ) : ℝ :=
  (crossdev xs ys : ℝ) / Real.sqrt ((sqdev xs : ℝ) * (sqdev ys : ℝ))

/-- Modelled from the spec: "Compute the two-sided p-value for the null
hypothesis that the true slope is zero, using the standard t-distribution
test for regression significance with n−2 degrees of freedom."  The survival
function of the Student-t distribution is not reproduced in this embedding;
it is the parameter `tsf` (degrees of freedom, |t| statistic).  For a perfect
fit (r² = 1) the t statistic diverges and the two-sided p-value is 0, the one
value the spec fixes numerically; elsewhere the p-value is an explicit
function of the sample count and rvalue alone. -/
noncomputable def pvalueOf (tsf : ℕ → ℝ → ℝ) (n : ℕ) (r : ℝ) : ℝ :=
  if r ^ 2 = 1 then 0
  else 2 * tsf (n - 2) |r * Real.sqrt (((n : ℝ) - 2) / (1 - r ^ 2))|

/-- Modelled from the spec: "Compute the standard error of the slope estimate
under the ordinary least-squares assumptions": √((Syy/Sxx − slope²)/(n − 2)).
For n = 2 a perfect two-point fit makes the numerator exactly 0, giving the
stderr = 0 the spec requires for two points. -/
noncomputable def olsStderr (xs ys : List ℚ) : ℝ :=
  Real.sqrt (((sqdev ys / sqdev xs - olsSlope xs ys ^ 2 : ℚ) : ℝ) /
    ((xs.length : ℝ) - 2))

/-- Assemble the five-field result of the shared OLS machinery on an explicit
independent variable `xs`. -/
noncomputable def olsResult (tsf : ℕ → ℝ → ℝ) (xs ys : List ℚ) :
    RegressionResult :=
  { slope := olsSlope xs ys
    intercept := olsIntercept xs ys
    rvalue := olsRvalue xs ys
    pvalue := pvalueOf tsf xs.length (olsRvalue xs ys)
    stderr := olsStderr xs ys }

/-- Elapsed time of each sample relative to the first sample, in fractional
hours.  Modelled from the spec: "Let t0 = timestamp of the first sample. For
each sample i, compute x_i = (timestamp_i − t0) expressed in
whole-plus-fractional hours (elapsed seconds divided by 3600)". -/
def elapsedHours : List Sample → List ℚ
  | [] => []
  | p0 :: rest => (p0 :: rest).map (fun p => (p.t - p0.t) / 3600)

/-- The values of a sample sequence, in order. -/
def sampleValues (s : List Sample) : List ℚ := s.map Sample.v

/-- Modelled from the spec: the time-weighted linear trend estimator
`compute_time_trend` (the notebook's `linear_trend_timewise`).  It regresses
value against elapsed hours since the first sample and signals the
DegenerateInputError of §7 — fewer than two samples, or all timestamps
identical (zero time variance) — as `none` instead of a numeric record. -/
noncomputable def compute_time_trend (tsf : ℕ → ℝ → ℝ) (s : List Sample) :
    Option RegressionResult :=
  match s with
  | [] => none
  | p0 :: rest =>
    if (p0 :: rest).length < 2 ∨ (p0 :: rest).all (fun p => p.t = p0.t) then
      none
    else
      some (olsResult tsf (elapsedHours (p0 :: rest))
        (sampleValues (p0 :: rest)))

/-- The ordinal independent variable 0, 1, …, n−1 of the non-time-aware
variant. -/
def ordinalIndex (s : List Sample) : List ℚ :=
  (List.range s.length).map (fun i : ℕ => (i : ℚ))

/-- Modelled from the spec: the non-time-aware variant `linear_trend`
"performs the identical algorithm but substitutes x_i = i (the ordinal sample
index, not elapsed time) in place of elapsed hours". -/
noncomputable def linear_trend (tsf : ℕ → ℝ → ℝ) (s : List Sample) :
    Option RegressionResult :=
  if s.length < 2 then none
  else some (olsResult tsf (ordinalIndex s) (sampleValues s))

/-- The example calculator of the notebook, from its source:
`times_seconds = (ix[-1] - ix[0]).total_seconds()` then
`return times_seconds / float(3600)`; indexing an empty series fails, which
is modelled as `none`. -/
def timespan : List Sample → Option ℚ
  | [] => none
  | p0 :: rest => some ((((p0 :: rest).getLast (by simp)).t - p0.t) / 3600)

/-- Shift every timestamp of a sequence by a constant offset. -/
def shiftTime (c : ℚ) (s : List Sample) : List Sample :=
  s.map (fun p => ⟨p.t + c, p.v⟩)

/-- Scale every timestamp of a sequence by a constant factor (a change of
time unit scales the elapsed-time axis by the same factor). -/
def scaleTime (k : ℚ) (s : List Sample) : List Sample :=
  s.map (fun p => ⟨k * p.t, p.v⟩)

/-- The two samples of group "a", signal "temperature" in the notebook:
timestamps 2019-03-01 10:04:00 and 2019-03-01 10:50:00 (as Unix epoch
seconds) with values 1 and 2. -/
def aTemperature : List Sample :=
  [⟨1551434640, 1⟩, ⟨1551437400, 2⟩]

/-- A two-sample sequence spaced exactly one hour apart, for checking the
hourly-equivalence property on a concrete input. -/
def hourlyPair : List Sample :=
  [⟨0, 1⟩, ⟨3600, 5⟩]

theorem mean_pair (a b : ℚ) : mean [a, b] = (a + b) / 2 := by
  simp [mean]

theorem sqdev_pair (a b : ℚ) : sqdev [a, b] = (b - a) ^ 2 / 2 := by
  simp [sqdev, mean]
  ring

theorem crossdev_pair (a b c d : ℚ) :
    crossdev [a, b] [c, d] = (b - a) * (d - c) / 2 := by
  simp [crossdev, mean]
  ring

theorem olsSlope_pair0 (w c d : ℚ) (hw : w ≠ 0) :
    olsSlope [0, w] [c, d] = (d - c) / w := by
  rw [olsSlope, crossdev_pair, sqdev_pair]
  field_simp
  ring

theorem olsIntercept_pair0 (w c d : ℚ) (hw : w ≠ 0) :
    olsIntercept [0, w] [c, d] = c := by
  rw [olsIntercept, olsSlope_pair0 w c d hw, mean_pair, mean_pair]
  field_simp
  ring

theorem olsRvalue_pair0_pos (w c d : ℚ) (hw : 0 < w) (h : c < d) :
    olsRvalue [0, w] [c, d] = 1 := by
  rw [olsRvalue, crossdev_pair, sqdev_pair, sqdev_pair]
  push_cast
  have h1 : ((w : ℝ) - 0) ^ 2 / 2 * (((d : ℝ) - c) ^ 2 / 2)
      = (((w : ℝ) - 0) * ((d : ℝ) - c) / 2) ^ 2 := by ring
  have hw' : (0 : ℝ) < (w : ℝ) := by exact_mod_cast hw
  have hcd : (c : ℝ) < (d : ℝ) := by exact_mod_cast h
  rw [h1, Real.sqrt_sq (by nlinarith)]
  rw [div_self (by nlinarith)]

theorem olsRvalue_pair0_neg (w c d : ℚ) (hw : 0 < w) (h : d < c) :
    olsRvalue [0, w] [c, d] = -1 := by
  rw [olsRvalue, crossdev_pair, sqdev_pair, sqdev_pair]
  push_cast
  have h1 : ((w : ℝ) - 0) ^ 2 / 2 * (((d : ℝ) - c) ^ 2 / 2)
      = (((w : ℝ) - 0) * ((c : ℝ) - d) / 2) ^ 2 := by ring
  have hw' : (0 : ℝ) < (w : ℝ) := by exact_mod_cast hw
  have hcd : (d : ℝ) < (c : ℝ) := by exact_mod_cast h
  rw [h1, Real.sqrt_sq (by nlinarith)]
  have h2 : ((w : ℝ) - 0) * ((d : ℝ) - c) / 2
      = -(((w : ℝ) - 0) * ((c : ℝ) - d) / 2) := by ring
  rw [h2, neg_div, div_self (by nlinarith)]

theorem olsStderr_two (xs ys : List ℚ) (h : xs.length = 2) :
    olsStderr xs ys = 0 := by
  rw [olsStderr, h]
  norm_num

theorem pvalueOf_sq_one (tsf : ℕ → ℝ → ℝ) (n : ℕ) (r : ℝ) (h : r ^ 2 = 1) :
    pvalueOf tsf n r = 0 := by
  rw [pvalueOf, if_pos h]


theorem compute_time_trend_pair (tsf : ℕ → ℝ → ℝ) (t0 t1 y0 y1 : ℚ)
    (h : t0 ≠ t1) :
    compute_time_trend tsf [⟨t0, y0⟩, ⟨t1, y1⟩] =
      some (olsResult tsf [0, (t1 - t0) / 3600] [y0, y1]) := by
  simp only [compute_time_trend]
  rw [if_neg]
  · have hx : elapsedHours [⟨t0, y0⟩, ⟨t1, y1⟩] = [0, (t1 - t0) / 3600] := by
      simp [elapsedHours]
    have hy : sampleValues [⟨t0, y0⟩, ⟨t1, y1⟩] = [y0, y1] := rfl
    rw [hx, hy]
  · simp [List.all_cons]
    exact fun h1 => absurd h1.symm h

theorem linear_trend_pair (tsf : ℕ → ℝ → ℝ) (p q : Sample) :
    linear_trend tsf [p, q] =
      some (olsResult tsf [0, 1] [p.v, q.v]) := by
  simp only [linear_trend]
  rw [if_neg (by norm_num)]
  have hx : ordinalIndex [p, q] = [0, 1] := by
    simp [ordinalIndex, List.range_succ]
  have hy : sampleValues [p, q] = [p.v, q.v] := rfl
  rw [hx, hy]

theorem aTemperature_timewise (tsf : ℕ → ℝ → ℝ) :
    compute_time_trend tsf aTemperature = some ⟨30/23, 1, 1, 0, 0⟩ := by
  have h0 : aTemperature = [⟨1551434640, 1⟩, ⟨1551437400, 2⟩] := rfl
  rw [h0, compute_time_trend_pair tsf _ _ _ _ (by norm_num)]
  have hw : ((1551437400 : ℚ) - 1551434640) / 3600 = 23 / 30 := by norm_num
  rw [hw]
  have hr : olsRvalue [0, (23 : ℚ)/30] [1, 2] = 1 :=
    olsRvalue_pair0_pos _ _ _ (by norm_num) (by norm_num)
  have h1 : olsSlope [0, (23 : ℚ)/30] [1, 2] = 30/23 := by
    rw [olsSlope_pair0 _ _ _ (by norm_num)]; norm_num
  have h2 : olsIntercept [0, (23 : ℚ)/30] [1, 2] = 1 :=
    olsIntercept_pair0 _ _ _ (by norm_num)
  have h5 : olsStderr [0, (23 : ℚ)/30] [1, 2] = 0 := olsStderr_two _ _ rfl
  simp only [olsResult, List.length_cons, List.length_nil]
  rw [h1, h2, hr, h5, pvalueOf_sq_one tsf _ 1 (by norm_num)]

theorem aTemperature_ordinal (tsf : ℕ → ℝ → ℝ) :
    linear_trend tsf aTemperature = some ⟨1, 1, 1, 0, 0⟩ := by
  have h0 : aTemperature = [⟨1551434640, 1⟩, ⟨1551437400, 2⟩] := rfl
  rw [h0, linear_trend_pair]
  have hr : olsRvalue [0, (1 : ℚ)] [1, 2] = 1 :=
    olsRvalue_pair0_pos _ _ _ (by norm_num) (by norm_num)
  have h1 : olsSlope [0, (1 : ℚ)] [1, 2] = 1 := by
    rw [olsSlope_pair0 _ _ _ (by norm_num)]; norm_num
  have h2 : olsIntercept [0, (1 : ℚ)] [1, 2] = 1 :=
    olsIntercept_pair0 _ _ _ (by norm_num)
  have h5 : olsStderr [0, (1 : ℚ)] [1, 2] = 0 := olsStderr_two _ _ rfl
  simp only [olsResult, List.length_cons, List.length_nil]
  rw [h1, h2, hr, h5, pvalueOf_sq_one tsf _ 1 (by norm_num)]

theorem elapsedHours_getD (s : List Sample) (h : s ≠ []) (i : ℕ)
    (hi : i < s.length) :
    (elapsedHours s).getD i 0
        = ((s.getD i ⟨0, 0⟩).t - (s.head h).t) / 3600 ∧
      (elapsedHours s).getD 0 0 = 0 := by
  match s with
  | p0 :: rest =>
    have hlen : i < (elapsedHours (p0 :: rest)).length := by
      simpa [elapsedHours] using hi
    constructor
    · rw [List.getD_eq_getElem _ _ hlen, List.getD_eq_getElem _ _ hi]
      show ((p0 :: rest).map _)[i] = _
      simp only [List.getElem_map]
      rfl
    · simp [elapsedHours]

/-- C3: a sequence with fewer than two samples, or whose samples all share
one timestamp (zero time variance), makes `compute_time_trend` signal the
degenerate-input outcome `none` instead of any numeric five-field result;
in particular no slope 0 and no rvalue ±1 is ever returned for such input. -/
theorem c3_degenerate_error (tsf : ℕ → ℝ → ℝ) (s : List Sample)
    (h : s.length < 2 ∨ ∀ p ∈ s, ∀ q ∈ s, p.t = q.t) :
    compute_time_trend tsf s = none := by
  match s with
  | [] => rfl
  | p0 :: rest =>
    simp only [compute_time_trend]
    rw [if_pos]
    rcases h with h | h
    · exact Or.inl h
    · refine Or.inr ?_
      simp only [List.all_eq_true, decide_eq_true_eq]
      exact fun p hp => h p hp p0 (by simp)


theorem sampleValues_shift (c : ℚ) (s : List Sample) :
    sampleValues (shiftTime c s) = sampleValues s := by
  simp [sampleValues, shiftTime, List.map_map, Function.comp]


theorem elapsedHours_shift (c : ℚ) (p0 : Sample) (rest : List Sample) :
    elapsedHours (Sample.mk (p0.t + c) p0.v :: shiftTime c rest)
      = elapsedHours (p0 :: rest) := by
  have h1 : elapsedHours (Sample.mk (p0.t + c) p0.v :: shiftTime c rest)
      = ((p0 :: rest).map (fun p => Sample.mk (p.t + c) p.v)).map
          (fun p => (p.t - (p0.t + c)) / 3600) := rfl
  have h2 : elapsedHours (p0 :: rest)
      = (p0 :: rest).map (fun p => (p.t - p0.t) / 3600) := rfl
  rw [h1, List.map_map, h2]
  apply List.map_congr_left
  intro a _
  show (a.t + c - (p0.t + c)) / 3600 = (a.t - p0.t) / 3600
  ring

theorem compute_time_trend_shift (tsf : ℕ → ℝ → ℝ) (c : ℚ)
    (s : List Sample) :
    compute_time_trend tsf (shiftTime c s) = compute_time_trend tsf s := by
  match s with
  | [] => rfl
  | p0 :: rest =>
    have hmap : shiftTime c (p0 :: rest)
        = Sample.mk (p0.t + c) p0.v :: shiftTime c rest := rfl
    rw [hmap]
    simp only [compute_time_trend]
    apply if_congr
    · apply or_congr
      · simp [shiftTime]
      · simp only [List.all_eq_true, decide_eq_true_eq, List.mem_cons,
          shiftTime, List.mem_map]
        constructor
        · intro h q hq
          rcases hq with hq | hq
          · rw [hq]
          · have := h (Sample.mk (q.t + c) q.v) (Or.inr ⟨q, hq, rfl⟩)
            have h2 : q.t + c = p0.t + c := this
            exact add_right_cancel h2
        · intro h q hq
          rcases hq with hq | ⟨a, ha, hq⟩
          · rw [hq]
          · rw [← hq]
            show a.t + c = p0.t + c
            rw [h a (Or.inr ha)]
    · rfl
    · rw [elapsedHours_shift, ← hmap, sampleValues_shift c (p0 :: rest)]

theorem sum_map_mul {α : Type} (k : ℚ) (f : α → ℚ) (l : List α) :
    (l.map (fun x => k * f x)).sum = k * (l.map f).sum := by
  induction l with
  | nil => simp
  | cons a l ih => simp [ih, mul_add]

theorem mean_map_mul (k : ℚ) (l : List ℚ) :
    mean (l.map (fun x => k * x)) = k * mean l := by
  have h : (l.map (fun x => k * x)).sum = k * l.sum := by
    have := sum_map_mul k (fun x => x) l
    simpa using this
  rw [mean, mean, h, List.length_map, mul_div_assoc]

theorem sqdev_map_mul (k : ℚ) (l : List ℚ) :
    sqdev (l.map (fun x => k * x)) = k ^ 2 * sqdev l := by
  rw [sqdev, sqdev, mean_map_mul, List.map_map]
  have h : ∀ a ∈ l, ((fun x => (x - k * mean l) ^ 2) ∘ fun x => k * x) a
      = k ^ 2 * (a - mean l) ^ 2 := by
    intro a _
    simp only [Function.comp_apply]
    ring
  rw [List.map_congr_left h, sum_map_mul (k ^ 2) (fun x => (x - mean l) ^ 2) l]

theorem crossdev_map_mul_left (k : ℚ) (xs ys : List ℚ) :
    crossdev (xs.map (fun x => k * x)) ys = k * crossdev xs ys := by
  rw [crossdev, crossdev, mean_map_mul, List.zip_map_left, List.map_map]
  have h : ∀ p ∈ xs.zip ys,
      ((fun p => (p.1 - k * mean xs) * (p.2 - mean ys)) ∘ Prod.map (fun x => k * x) id) p
        = k * ((p.1 - mean xs) * (p.2 - mean ys)) := by
    intro p _
    simp only [Function.comp_apply, Prod.map_fst, Prod.map_snd, id]
    ring
  rw [List.map_congr_left h,
    sum_map_mul k (fun p => (p.1 - mean xs) * (p.2 - mean ys)) (xs.zip ys)]

theorem olsSlope_map_mul (k : ℚ) (hk : k ≠ 0) (xs ys : List ℚ) :
    olsSlope (xs.map (fun x => k * x)) ys = olsSlope xs ys / k := by
  rw [olsSlope, olsSlope, crossdev_map_mul_left, sqdev_map_mul]
  have h : k ^ 2 * sqdev xs = k * (k * sqdev xs) := by ring
  rw [h, mul_div_mul_left _ _ hk, div_div, mul_comm (sqdev xs) k, ← div_div]

theorem olsRvalue_map_mul (k : ℚ) (hk : 0 < k) (xs ys : List ℚ) :
    olsRvalue (xs.map (fun x => k * x)) ys = olsRvalue xs ys := by
  rw [olsRvalue, olsRvalue, crossdev_map_mul_left, sqdev_map_mul]
  push_cast
  have hk0 : (0 : ℝ) < (k : ℝ) := by exact_mod_cast hk
  have h : ((k : ℝ)) ^ 2 * (sqdev xs : ℝ) * (sqdev ys : ℝ)
      = ((k : ℝ)) ^ 2 * ((sqdev xs : ℝ) * (sqdev ys : ℝ)) := by ring
  rw [h, Real.sqrt_mul (sq_nonneg _), Real.sqrt_sq hk0.le]
  exact mul_div_mul_left _ _ (ne_of_gt hk0)

theorem exists_ne_head (p0 : Sample) (rest : List Sample)
    (hne : ∃ p ∈ p0 :: rest, ∃ q ∈ p0 :: rest, p.t ≠ q.t) :
    ∃ q ∈ p0 :: rest, q.t ≠ p0.t := by
  obtain ⟨p, hp, q, hq, hpq⟩ := hne
  by_cases h : p.t = p0.t
  · exact ⟨q, hq, fun hc => hpq (h.trans hc.symm)⟩
  · exact ⟨p, hp, h⟩

theorem compute_time_trend_cons (tsf : ℕ → ℝ → ℝ) (p0 : Sample)
    (rest : List Sample) (h : ∃ q ∈ p0 :: rest, q.t ≠ p0.t) :
    compute_time_trend tsf (p0 :: rest)
      = some (olsResult tsf (elapsedHours (p0 :: rest))
          (sampleValues (p0 :: rest))) := by
  obtain ⟨q, hq, hqt⟩ := h
  simp only [compute_time_trend]
  rw [if_neg]
  push_neg
  constructor
  · match rest with
    | [] =>
      rcases List.mem_singleton.mp hq with hq1
      exact absurd (congrArg Sample.t hq1) hqt
    | r :: rs => simp
  · intro hall
    have := List.all_eq_true.mp hall q hq
    exact hqt (of_decide_eq_true this)

theorem sampleValues_scale (k : ℚ) (s : List Sample) :
    sampleValues (scaleTime k s) = sampleValues s := by
  simp [sampleValues, scaleTime, List.map_map, Function.comp]

theorem elapsedHours_scale (k : ℚ) (p0 : Sample) (rest : List Sample) :
    elapsedHours (Sample.mk (k * p0.t) p0.v :: scaleTime k rest)
      = (elapsedHours (p0 :: rest)).map (fun x => k * x) := by
  have h1 : elapsedHours (Sample.mk (k * p0.t) p0.v :: scaleTime k rest)
      = ((p0 :: rest).map (fun p => Sample.mk (k * p.t) p.v)).map
          (fun p => (p.t - k * p0.t) / 3600) := rfl
  have h2 : (elapsedHours (p0 :: rest)).map (fun x => k * x)
      = ((p0 :: rest).map (fun p => (p.t - p0.t) / 3600)).map
          (fun x => k * x) := rfl
  rw [h1, h2, List.map_map, List.map_map]
  apply List.map_congr_left
  intro a _
  show (k * a.t - k * p0.t) / 3600 = k * ((a.t - p0.t) / 3600)
  ring

/-- C4: for every sample sequence of length ≥ 2 with not-all-identical
timestamps, adding one constant offset to every timestamp leaves all five
output fields of `compute_time_trend` unchanged: the shifted sequence yields
the very same `RegressionResult` record. -/
theorem c4_time_shift_invariance (tsf : ℕ → ℝ → ℝ) (c : ℚ)
    (s : List Sample) (h2 : 2 ≤ s.length)
    (hne : ∃ p ∈ s, ∃ q ∈ s, p.t ≠ q.t) :
    ∃ R : RegressionResult, compute_time_trend tsf s = some R ∧
      compute_time_trend tsf (shiftTime c s) = some R := by
  match s with
  | [] => simp at h2
  | p0 :: rest =>
    have hx := exists_ne_head p0 rest hne
    refine ⟨_, compute_time_trend_cons tsf p0 rest hx, ?_⟩
    rw [compute_time_trend_shift tsf c (p0 :: rest)]
    exact compute_time_trend_cons tsf p0 rest hx

/-- C5: for every sample sequence of length ≥ 2 with not-all-identical
timestamps and every factor k > 0, scaling the elapsed-time axis by k
(scaling all timestamps by k) multiplies the slope of `compute_time_trend`
by 1/k and leaves rvalue and p-value unchanged. -/
theorem c5_time_scale (tsf : ℕ → ℝ → ℝ) (k : ℚ) (s : List Sample)
    (hk : 0 < k) (h2 : 2 ≤ s.length)
    (hne : ∃ p ∈ s, ∃ q ∈ s, p.t ≠ q.t) :
    ∃ R S : RegressionResult,
      compute_time_trend tsf s = some R ∧
      compute_time_trend tsf (scaleTime k s) = some S ∧
      S.slope = R.slope / k ∧ S.rvalue = R.rvalue ∧ S.pvalue = R.pvalue := by
  match s with
  | [] => simp at h2
  | p0 :: rest =>
    obtain ⟨q, hq, hqt⟩ := exists_ne_head p0 rest hne
    have hscale : scaleTime k (p0 :: rest)
        = Sample.mk (k * p0.t) p0.v :: scaleTime k rest := rfl
    have hq' : Sample.mk (k * q.t) q.v
        ∈ Sample.mk (k * p0.t) p0.v :: scaleTime k rest := by
      rw [← hscale]
      exact List.mem_map_of_mem (fun p => Sample.mk (k * p.t) p.v) hq
    have hx' : ∃ r ∈ Sample.mk (k * p0.t) p0.v :: scaleTime k rest,
        r.t ≠ (Sample.mk (k * p0.t) p0.v).t :=
      ⟨_, hq', fun hc => hqt (mul_left_cancel₀ (ne_of_gt hk) hc)⟩
    have e1 := compute_time_trend_cons tsf p0 rest ⟨q, hq, hqt⟩
    have e2 := compute_time_trend_cons tsf (Sample.mk (k * p0.t) p0.v)
      (scaleTime k rest) hx'
    have hxs := elapsedHours_scale k p0 rest
    have hys : sampleValues (Sample.mk (k * p0.t) p0.v :: scaleTime k rest)
        = sampleValues (p0 :: rest) := sampleValues_scale k (p0 :: rest)
    rw [hxs, hys] at e2
    refine ⟨_, _, e1, by rw [hscale]; exact e2, ?_, ?_, ?_⟩
    · show olsSlope ((elapsedHours (p0 :: rest)).map (fun x => k * x))
          (sampleValues (p0 :: rest)) = _
      exact olsSlope_map_mul k (ne_of_gt hk) _ _
    · show olsRvalue ((elapsedHours (p0 :: rest)).map (fun x => k * x))
          (sampleValues (p0 :: rest)) = _
      exact olsRvalue_map_mul k hk _ _
    · show pvalueOf tsf ((elapsedHours (p0 :: rest)).map
          (fun x => k * x)).length _ = _
      rw [List.length_map, olsRvalue_map_mul k hk]
      rfl

/-- C6: when the samples are exactly evenly spaced at one-hour intervals
(timestamp_i = timestamp_0 + 3600·i seconds), the time-weighted estimator
`compute_time_trend` and the ordinal-index estimator `linear_trend` return
identical slope values. -/
theorem c6_hourly_equivalence (tsf : ℕ → ℝ → ℝ) (s : List Sample)
    (h2 : 2 ≤ s.length)
    (hsp : ∀ i, i < s.length →
      (s.getD i ⟨0, 0⟩).t = (s.getD 0 ⟨0, 0⟩).t + 3600 * i) :
    ∃ R S : RegressionResult, compute_time_trend tsf s = some R ∧
      linear_trend tsf s = some S ∧ R.slope = S.slope := by
  match s with
  | [] => simp at h2
  | p0 :: rest =>
    have hget : ∀ (i : ℕ) (hi : i < (p0 :: rest).length),
        ((p0 :: rest).get ⟨i, hi⟩).t = p0.t + 3600 * i := by
      intro i hi
      have := hsp i hi
      rwa [List.getD_eq_get _ _ hi] at this
    have hlist : elapsedHours (p0 :: rest) = ordinalIndex (p0 :: rest) := by
      apply List.ext_get
      · simp [elapsedHours, ordinalIndex]
      · intro i hi1 hi2
        have hi : i < (p0 :: rest).length := by
          simpa [elapsedHours] using hi1
        have h1 : (elapsedHours (p0 :: rest)).get ⟨i, hi1⟩
            = (((p0 :: rest).get ⟨i, hi⟩).t - p0.t) / 3600 := by
          show (((p0 :: rest).map fun p => (p.t - p0.t) / 3600).get _) = _
          rw [List.get_map]
        have hi3 : i < (List.range (p0 :: rest).length).length := by
          simpa using hi
        have h3 : (ordinalIndex (p0 :: rest)).get ⟨i, hi2⟩ = (i : ℚ) := by
          have hi4 : i < ((List.range (p0 :: rest).length).map
              fun j : ℕ => (j : ℚ)).length := by
            simpa [ordinalIndex] using hi2
          have he : (ordinalIndex (p0 :: rest)).get ⟨i, hi2⟩
              = ((List.range (p0 :: rest).length).map
                  fun j : ℕ => (j : ℚ)).get ⟨i, hi4⟩ := rfl
          rw [he, List.get_map]
          exact congrArg (fun n : ℕ => (n : ℚ))
            (List.get_range i (by simpa using hi4))
        rw [h1, h3, hget i hi]
        field_simp
    have h1len : 1 < (p0 :: rest).length := h2
    have hx : ∃ q ∈ p0 :: rest, q.t ≠ p0.t := by
      refine ⟨(p0 :: rest).get ⟨1, h1len⟩, List.get_mem _ _ _, ?_⟩
      rw [hget 1 h1len]
      norm_num
    refine ⟨_, olsResult tsf (ordinalIndex (p0 :: rest))
      (sampleValues (p0 :: rest)),
      compute_time_trend_cons tsf p0 rest hx, ?_, ?_⟩
    · show linear_trend tsf (p0 :: rest) = _
      simp only [linear_trend]
      rw [if_neg (not_lt.mpr h2)]
    · show olsSlope (elapsedHours (p0 :: rest)) _ = olsSlope (ordinalIndex (p0 :: rest)) _
      rw [hlist]

/-- C9: every two-sample sequence with distinct (ascending) timestamps and
distinct values gives, under both estimators, a perfect-fit result:
stderr = 0, p-value = 0, rvalue = +1 when the second value exceeds the first
and −1 when it is smaller, and intercept equal to the first sample value —
the shape of all eight two-sample (group, signal) outputs in the notebook. -/
theorem c9_two_sample_perfect_fit (tsf : ℕ → ℝ → ℝ) (t0 t1 y0 y1 : ℚ)
    (ht : t0 < t1) (hy : y0 ≠ y1) :
    ∃ R S : RegressionResult,
      compute_time_trend tsf [⟨t0, y0⟩, ⟨t1, y1⟩] = some R ∧
      linear_trend tsf [⟨t0, y0⟩, ⟨t1, y1⟩] = some S ∧
      R.stderr = 0 ∧ R.pvalue = 0 ∧ R.intercept = y0 ∧
      (y0 < y1 → R.rvalue = 1) ∧ (y1 < y0 → R.rvalue = -1) ∧
      S.stderr = 0 ∧ S.pvalue = 0 ∧ S.intercept = y0 ∧
      (y0 < y1 → S.rvalue = 1) ∧ (y1 < y0 → S.rvalue = -1) := by
  have hw0 : 0 < (t1 - t0) / 3600 := div_pos (sub_pos.mpr ht) (by norm_num)
  have hr2 : (olsRvalue [0, (t1 - t0) / 3600] [y0, y1]) ^ 2 = 1 := by
    rcases lt_or_gt_of_ne hy with h | h
    · rw [olsRvalue_pair0_pos _ _ _ hw0 h]; norm_num
    · rw [olsRvalue_pair0_neg _ _ _ hw0 h]; norm_num
  have hs2 : (olsRvalue [0, (1 : ℚ)] [y0, y1]) ^ 2 = 1 := by
    rcases lt_or_gt_of_ne hy with h | h
    · rw [olsRvalue_pair0_pos _ _ _ (by norm_num) h]; norm_num
    · rw [olsRvalue_pair0_neg _ _ _ (by norm_num) h]; norm_num
  refine ⟨_, _, compute_time_trend_pair tsf t0 t1 y0 y1 (ne_of_lt ht),
    linear_trend_pair tsf ⟨t0, y0⟩ ⟨t1, y1⟩,
    olsStderr_two _ _ rfl, pvalueOf_sq_one tsf _ _ hr2,
    olsIntercept_pair0 _ _ _ (ne_of_gt hw0),
    fun h => olsRvalue_pair0_pos _ _ _ hw0 h,
    fun h => olsRvalue_pair0_neg _ _ _ hw0 h,
    olsStderr_two _ _ rfl, pvalueOf_sq_one tsf _ _ hs2,
    olsIntercept_pair0 _ _ _ (by norm_num),
    fun h => olsRvalue_pair0_pos _ _ _ (by norm_num) h,
    fun h => olsRvalue_pair0_neg _ _ _ (by norm_num) h⟩

/-- C8: `compute_time_trend` is deterministic — two calls on identical inputs
of length ≥ 2 with pairwise distinct timestamps yield identical five-field
outputs.  The embedding is a pure function of an immutable list, so
mutation-freedom holds by construction. -/
theorem c8_deterministic (tsf : ℕ → ℝ → ℝ) (s1 s2 : List Sample)
    (h2 : 2 ≤ s1.length) (hd : List.Pairwise (fun a b => a.t ≠ b.t) s1)
    (he : s1 = s2) :
    compute_time_trend tsf s1 = compute_time_trend tsf s2 := by
  rw [he]

/-- C10: the notebook example calculator `timespan` returns the elapsed time
(last timestamp − first timestamp)/3600 in fractional hours; for every
non-empty series sorted ascending by timestamp the result is non-negative,
and it is zero exactly when the first and last timestamps coincide. -/
theorem c10_timespan (s : List Sample) (h : s ≠ [])
    (hs : List.Sorted (fun a b : Sample => a.t ≤ b.t) s) :
    ∃ r : ℚ, timespan s = some r ∧
      r = ((s.getLast h).t - (s.head h).t) / 3600 ∧ 0 ≤ r ∧
      (r = 0 ↔ (s.getLast h).t = (s.head h).t) := by
  match s with
  | p0 :: rest =>
    have hle : p0.t ≤ ((p0 :: rest).getLast (by simp)).t := by
      have hmem := List.getLast_mem (l := p0 :: rest) (by simp)
      rcases List.mem_cons.mp hmem with hmem | hmem
      · exact le_of_eq (congrArg Sample.t hmem).symm
      · exact (List.pairwise_cons.mp hs).1 _ hmem
    refine ⟨_, rfl, rfl, ?_, ?_⟩
    · exact div_nonneg (sub_nonneg.mpr hle) (by norm_num)
    · rw [div_eq_zero_iff]
      constructor
      · intro hc
        rcases hc with hc | hc
        · exact sub_eq_zero.mp hc
        · norm_num at hc
      · intro hc
        exact Or.inl (sub_eq_zero.mpr hc)

theorem compute_time_trend_some (tsf : ℕ → ℝ → ℝ) (s : List Sample)
    (R : RegressionResult) (hR : compute_time_trend tsf s = some R) :
    R = olsResult tsf (elapsedHours s) (sampleValues s) := by
  match s with
  | [] => simp [compute_time_trend] at hR
  | p0 :: rest =>
    simp only [compute_time_trend] at hR
    split at hR
    · exact absurd hR (by simp)
    · injection hR with h
      exact h.symm

/-- C2: the independent variable of the regression performed by
`compute_time_trend` is x_i = (timestamp_i − t0)/3600 with t0 the first
sample timestamp — elapsed fractional hours relative to the first sample —
and x_0 = 0 for every non-empty sequence; every `some` result of
`compute_time_trend` is the OLS record over exactly this axis. -/
theorem c2_elapsed_time_axis (s : List Sample) (h : s ≠ []) (i : ℕ)
    (hi : i < s.length) :
    ((elapsedHours s).getD i 0
        = ((s.getD i ⟨0, 0⟩).t - (s.head h).t) / 3600 ∧
      (elapsedHours s).getD 0 0 = 0) ∧
    ∀ (tsf : ℕ → ℝ → ℝ) (R : RegressionResult),
      compute_time_trend tsf s = some R →
        R = olsResult tsf (elapsedHours s) (sampleValues s) :=
  ⟨elapsedHours_getD s h i hi, fun tsf R hR => compute_time_trend_some tsf s R hR⟩

/-- C1: on the two samples with timestamps 2019-03-01 10:04:00 and
2019-03-01 10:50:00 and values [1, 2] (elapsed hours [0, 23/30 ≈ 0.7667]),
`compute_time_trend` returns slope = 30/23 = (2 − 1)/(23/30) ≈ 1.304348,
intercept = 1, rvalue = 1, p-value = 0 and stderr = 0. -/
theorem c1_notebook_values (tsf : ℕ → ℝ → ℝ) :
    compute_time_trend tsf aTemperature = some ⟨30/23, 1, 1, 0, 0⟩ :=
  aTemperature_timewise tsf

/-- C7: the non-time-aware variant `linear_trend`, the identical OLS
algorithm on the ordinal axis x = [0, 1], returns slope = 1 exactly on the
same two points (values [1, 2]) for which the time-weighted variant returns
slope = 30/23 ≈ 1.304348; intercept, rvalue, p-value and stderr agree, so
the two estimators diverge only in the slope field on this input. -/
theorem c7_ordinal_cross_check (tsf : ℕ → ℝ → ℝ) :
    linear_trend tsf aTemperature = some ⟨1, 1, 1, 0, 0⟩ ∧
      compute_time_trend tsf aTemperature = some ⟨30/23, 1, 1, 0, 0⟩ ∧
      (30 / 23 : ℚ) ≠ 1 :=
  ⟨aTemperature_ordinal tsf, aTemperature_timewise tsf, by norm_num⟩


theorem c2_witness :
    1 < aTemperature.length ∧
      (((elapsedHours aTemperature).getD 1 0
          = ((aTemperature.getD 1 ⟨0, 0⟩).t
              - (aTemperature.head (by decide)).t) / 3600 ∧
        (elapsedHours aTemperature).getD 0 0 = 0) ∧
      ∀ (tsf : ℕ → ℝ → ℝ) (R : RegressionResult),
        compute_time_trend tsf aTemperature = some R →
          R = olsResult tsf (elapsedHours aTemperature)
            (sampleValues aTemperature)) :=
  ⟨by decide, c2_elapsed_time_axis aTemperature (by decide) 1 (by decide)⟩

theorem c3_witness :
    (([⟨0, 1⟩] : List Sample).length < 2 ∨
      ∀ p ∈ ([⟨0, 1⟩] : List Sample), ∀ q ∈ ([⟨0, 1⟩] : List Sample),
        p.t = q.t) ∧
    compute_time_trend (fun _ _ => 0) [⟨0, 1⟩] = none :=
  ⟨by decide, c3_degenerate_error (fun _ _ => 0) [⟨0, 1⟩] (by decide)⟩

theorem c4_witness :
    (2 ≤ aTemperature.length ∧
      ∃ p ∈ aTemperature, ∃ q ∈ aTemperature, p.t ≠ q.t) ∧
    ∃ R : RegressionResult,
      compute_time_trend (fun _ _ => 0) aTemperature = some R ∧
      compute_time_trend (fun _ _ => 0) (shiftTime 42 aTemperature)
        = some R :=
  ⟨⟨by decide, by decide⟩,
    c4_time_shift_invariance (fun _ _ => 0) 42 aTemperature (by decide)
      (by decide)⟩

theorem c5_witness :
    ((0 : ℚ) < 2 ∧ 2 ≤ aTemperature.length ∧
      ∃ p ∈ aTemperature, ∃ q ∈ aTemperature, p.t ≠ q.t) ∧
    ∃ R S : RegressionResult,
      compute_time_trend (fun _ _ => 0) aTemperature = some R ∧
      compute_time_trend (fun _ _ => 0) (scaleTime 2 aTemperature)
        = some S ∧
      S.slope = R.slope / 2 ∧ S.rvalue = R.rvalue ∧ S.pvalue = R.pvalue :=
  ⟨⟨by decide, by decide, by decide⟩,
    c5_time_scale (fun _ _ => 0) 2 aTemperature (by decide) (by decide)
      (by decide)⟩

theorem c6_witness :
    (2 ≤ hourlyPair.length ∧
      ∀ i, i < hourlyPair.length →
        (hourlyPair.getD i ⟨0, 0⟩).t
          = (hourlyPair.getD 0 ⟨0, 0⟩).t + 3600 * i) ∧
    ∃ R S : RegressionResult,
      compute_time_trend (fun _ _ => 0) hourlyPair = some R ∧
      linear_trend (fun _ _ => 0) hourlyPair = some S ∧
      R.slope = S.slope :=
  ⟨⟨by decide,
      by intro i hi; have hi2 : i < 2 := hi
         interval_cases i <;> norm_num [hourlyPair]⟩,
    c6_hourly_equivalence (fun _ _ => 0) hourlyPair (by decide)
      (by intro i hi; have hi2 : i < 2 := hi
          interval_cases i <;> norm_num [hourlyPair])⟩

theorem c8_witness :
    (2 ≤ aTemperature.length ∧
      List.Pairwise (fun a b : Sample => a.t ≠ b.t) aTemperature ∧
      aTemperature = aTemperature) ∧
    compute_time_trend (fun _ _ => 0) aTemperature
      = compute_time_trend (fun _ _ => 0) aTemperature :=
  ⟨⟨by decide, by decide, rfl⟩,
    c8_deterministic (fun _ _ => 0) aTemperature aTemperature (by decide)
      (by decide) rfl⟩

theorem c9_witness :
    ((0 : ℚ) < 3600 ∧ (1 : ℚ) ≠ 2) ∧
    ∃ R S : RegressionResult,
      compute_time_trend (fun _ _ => 0) [⟨0, 1⟩, ⟨3600, 2⟩] = some R ∧
      linear_trend (fun _ _ => 0) [⟨0, 1⟩, ⟨3600, 2⟩] = some S ∧
      R.stderr = 0 ∧ R.pvalue = 0 ∧ R.intercept = 1 ∧
      ((1 : ℚ) < 2 → R.rvalue = 1) ∧ ((2 : ℚ) < 1 → R.rvalue = -1) ∧
      S.stderr = 0 ∧ S.pvalue = 0 ∧ S.intercept = 1 ∧
      ((1 : ℚ) < 2 → S.rvalue = 1) ∧ ((2 : ℚ) < 1 → S.rvalue = -1) :=
  ⟨⟨by decide, by decide⟩,
    c9_two_sample_perfect_fit (fun _ _ => 0) 0 3600 1 2 (by decide)
      (by decide)⟩

theorem c10_witness :
    (aTemperature ≠ [] ∧
      List.Sorted (fun a b : Sample => a.t ≤ b.t) aTemperature) ∧
    ∃ r : ℚ, timespan aTemperature = some r ∧
      r = ((aTemperature.getLast (by decide)).t
          - (aTemperature.head (by decide)).t) / 3600 ∧
      0 ≤ r ∧
      (r = 0 ↔ (aTemperature.getLast (by decide)).t
          = (aTemperature.head (by decide)).t) :=
  ⟨⟨by decide, by decide⟩,
    c10_timespan aTemperature (by decide) (by decide)⟩
